import Mathlib

/-!
Verification development for the temporal-state subsystems of a personal
task manager: recurrence computation, occurrence planning, the per-task
change ledger, the notification scheduler, and a handful of pure frontend
utility functions (HTTP auth-response handling, profile-setting getters,
timeline label rendering).

The recurrence / planner / ledger / scheduler components are backend code
that the repository does not ship; their definitions below are modelled
from the specification document (marked in each doc comment). The frontend
utility functions are translated directly from the TypeScript sources.
-/

namespace TM

/-! ## Calendar dates (proleptic Gregorian) -/

/-- A calendar date: year, month (1..12), day (1..daysInMonth). -/
structure Date where
  y : Nat
  m : Nat
  d : Nat
deriving DecidableEq, Repr

/-- Gregorian leap-year rule. -/
def isLeap (y : Nat) : Bool :=
  y % 4 == 0 && (y % 100 != 0 || y % 400 == 0)

/-- Number of days in a given month of a given year. -/
def daysInMonth (y m : Nat) : Nat :=
  if m = 2 then (if isLeap y then 29 else 28)
  else if m = 4 ∨ m = 6 ∨ m = 9 ∨ m = 11 then 30
  else 31

/-- A date is valid when its month and day are within calendar bounds. -/
def Date.Valid (x : Date) : Prop :=
  1 ≤ x.m ∧ x.m ≤ 12 ∧ 1 ≤ x.d ∧ x.d ≤ daysInMonth x.y x.m

instance (x : Date) : Decidable x.Valid := by
  unfold Date.Valid; infer_instance

/-- Chronological strict order on dates (lexicographic year, month, day). -/
def Date.lt (a b : Date) : Prop :=
  a.y < b.y ∨ (a.y = b.y ∧ (a.m < b.m ∨ (a.m = b.m ∧ a.d < b.d)))

instance (a b : Date) : Decidable (Date.lt a b) := by
  unfold Date.lt; infer_instance

/-- Chronological order on dates: strictly before, or equal. -/
def Date.le (a b : Date) : Prop :=
  Date.lt a b ∨ a = b

instance (a b : Date) : Decidable (Date.le a b) := by
  unfold Date.le; infer_instance

/-- Days in the years strictly before year y (year 1 is the first year). -/
def daysBeforeYear (y : Nat) : Nat :=
  365 * (y - 1) + ((y - 1) / 4 - (y - 1) / 100) + (y - 1) / 400

/-- Days in the months of year y strictly before month m. -/
def daysBeforeMonth (y m : Nat) : Nat :=
  (List.range (m - 1)).foldl (fun a k => a + daysInMonth y (k + 1)) 0

/-- Sequential day number of a date (day 1 is 0001-01-01). -/
def dayNumber (x : Date) : Nat :=
  daysBeforeYear x.y + daysBeforeMonth x.y x.m + x.d

/-- Weekday of a date, Sunday = 0 .. Saturday = 6. -/
def weekdayOf (x : Date) : Nat :=
  dayNumber x % 7

/-- The day after a date, rolling over month and year boundaries. -/
def nextDay (x : Date) : Date :=
  if x.d < daysInMonth x.y x.m then ⟨x.y, x.m, x.d + 1⟩
  else if x.m < 12 then ⟨x.y, x.m + 1, 1⟩
  else ⟨x.y + 1, 1, 1⟩

/-- Add n days to a date. -/
def addDays : Nat → Date → Date
  | 0, x => x
  | n + 1, x => addDays n (nextDay x)

/-- Year component after advancing a date by n months. -/
def addMonthsY (x : Date) (n : Nat) : Nat :=
  (12 * x.y + (x.m - 1) + n) / 12

/-- Month component after advancing a date by n months. -/
def addMonthsM (x : Date) (n : Nat) : Nat :=
  (12 * x.y + (x.m - 1) + n) % 12 + 1

/-- Day of the first occurrence of weekday w (0..6) in month (y, m). -/
def firstWeekdayDay (y m w : Nat) : Nat :=
  1 + ((w + 7 - weekdayOf ⟨y, m, 1⟩) % 7)

/-- Day of the k-th occurrence of weekday w in month (y, m); k = 5 means
the last such weekday in the month, whether there are 4 or 5 of them. -/
def nthWeekdayDay (y m w k : Nat) : Nat :=
  if k = 5 then
    (if firstWeekdayDay y m w + 28 ≤ daysInMonth y m
     then firstWeekdayDay y m w + 28
     else firstWeekdayDay y m w + 21)
  else firstWeekdayDay y m w + 7 * (k - 1)

/-! Sanity checks for the calendar model. -/

example : daysInMonth 2024 2 = 29 := by decide

example : weekdayOf ⟨2024, 1, 3⟩ = 3 := by decide

example : addDays 5 ⟨2024, 1, 29⟩ = ⟨2024, 2, 3⟩ := by decide

/-! ## RecurrenceRule and nextOccurrence -/

/-- The six recurrence shapes offered by the RecurrenceInput form
(RecurrenceInput.tsx, the Repeat select). -/
inductive RecurrenceType
  | none
  | daily
  | weekly
  | monthly
  | monthly_weekday
  | monthly_last_day
deriving DecidableEq, Repr

/-- Recurrence rule attached to a task (spec section 3; field names follow
the recurrence form fields recurrence_type, recurrence_interval,
recurrence_weekday, recurrence_month_day, recurrence_week_of_month,
recurrence_end_date, completion_based). -/
structure RecurrenceRule where
  type : RecurrenceType
  interval : Nat
  weekday : Option Nat
  month_day : Option Nat
  week_of_month : Option Nat
  end_date : Option Date
  completion_based : Bool
deriving DecidableEq, Repr

/-- Modelled from the spec: rule validation (spec sections 3 and 4.1 — the
backend validator is not in the repository sources). Checks interval at
least 1, weekday in 0..6 when set, month_day in 1..31 when set,
week_of_month in 1..5 when set, and the fields required for
monthly_weekday present. -/
def validRule (r : RecurrenceRule) : Bool :=
  decide (1 ≤ r.interval) &&
  (match r.weekday with
   | some w => decide (w ≤ 6)
   | Option.none => true) &&
  (match r.month_day with
   | some md => decide (1 ≤ md ∧ md ≤ 31)
   | Option.none => true) &&
  (match r.week_of_month with
   | some k => decide (1 ≤ k ∧ k ≤ 5)
   | Option.none => true) &&
  (match r.type with
   | RecurrenceType.monthly_weekday => r.weekday.isSome && r.week_of_month.isSome
   | _ => true)

/-- Modelled from the spec: the candidate next date of section 4.1, per
rule type, before the end_date check (the backend nextOccurrence is not in
the repository sources). -/
def nextDate (anchor : Date) (rule : RecurrenceRule) : Option Date :=
  match rule.type with
  | RecurrenceType.none => Option.none
  | RecurrenceType.daily => some (addDays rule.interval anchor)
  | RecurrenceType.weekly =>
      match rule.weekday with
      | some w =>
          some (addDays
            ((if (w + 7 - weekdayOf anchor) % 7 = 0 then 7
              else (w + 7 - weekdayOf anchor) % 7) + 7 * (rule.interval - 1))
            anchor)
      | Option.none => some (addDays (7 * rule.interval) anchor)
  | RecurrenceType.monthly =>
      some ⟨addMonthsY anchor rule.interval, addMonthsM anchor rule.interval,
            min (rule.month_day.getD anchor.d)
              (daysInMonth (addMonthsY anchor rule.interval)
                (addMonthsM anchor rule.interval))⟩
  | RecurrenceType.monthly_weekday =>
      some ⟨addMonthsY anchor rule.interval, addMonthsM anchor rule.interval,
            nthWeekdayDay (addMonthsY anchor rule.interval)
              (addMonthsM anchor rule.interval)
              (rule.weekday.getD 0) (rule.week_of_month.getD 1)⟩
  | RecurrenceType.monthly_last_day =>
      some ⟨addMonthsY anchor rule.interval, addMonthsM anchor rule.interval,
            daysInMonth (addMonthsY anchor rule.interval)
              (addMonthsM anchor rule.interval)⟩

/-- Modelled from the spec: nextOccurrence of section 4.1 (not in the
repository sources). Returns the candidate next date strictly after the
anchor, or none when that date would fall on or after end_date. -/
def nextOccurrence (anchor : Date) (rule : RecurrenceRule) : Option Date :=
  match nextDate anchor rule with
  | some c =>
      match rule.end_date with
      | some e => if Date.le e c then Option.none else some c
      | Option.none => some c
  | Option.none => Option.none

/-! Sanity checks against the spec scenarios (sections 4.1 and 8). -/

example :
    nextOccurrence ⟨2024, 1, 3⟩
      ⟨RecurrenceType.weekly, 1, some 1, Option.none, Option.none, Option.none, false⟩
      = some ⟨2024, 1, 8⟩ := by decide

example :
    nextOccurrence ⟨2024, 3, 31⟩
      ⟨RecurrenceType.monthly, 1, Option.none, some 31, Option.none, Option.none, false⟩
      = some ⟨2024, 4, 30⟩ := by decide

example :
    nextOccurrence ⟨2024, 4, 30⟩
      ⟨RecurrenceType.monthly, 1, Option.none, some 31, Option.none, Option.none, false⟩
      = some ⟨2024, 5, 31⟩ := by decide

/-! ## OccurrencePlanner -/

/-- Task status (spec section 3). -/
inductive Status
  | not_started
  | in_progress
  | done
  | archived
deriving DecidableEq, Repr

/-- A task occurrence (spec section 3): optional parent reference, due
date, status, completion timestamp, the embedded copy of the rule valid at
spawn time, and the anchor date from which its due date was computed. -/
structure TaskOccurrence where
  id : Nat
  parent_task_id : Option Nat
  due_date : Date
  status : Status
  completed_at : Option Date
  rule : RecurrenceRule
  anchor : Date
deriving DecidableEq, Repr

/-- The series root an occurrence belongs to: its parent when it has one,
itself otherwise (spec section 4.2). -/
def seriesRoot (occ : TaskOccurrence) : Nat :=
  occ.parent_task_id.getD occ.id

/-- Modelled from the spec: completeOccurrence of section 4.2 (the backend
OccurrencePlanner is not in the repository sources). Marks the occurrence
done with completed_at = now; when the embedded rule repeats, computes the
anchor (now if completion_based, else the prior due date) and, when
nextOccurrence yields a date, spawns exactly one child carrying an
embedded copy of the rule. Re-invoking on an already-completed occurrence
is a no-op. Returns the updated occurrence and the spawned child, if any. -/
def completeOccurrence (occ : TaskOccurrence) (now : Date) (newId : Nat) :
    TaskOccurrence × Option TaskOccurrence :=
  if occ.status = Status.done then (occ, Option.none)
  else
    if occ.rule.type = RecurrenceType.none then
      ({ occ with status := Status.done, completed_at := some now }, Option.none)
    else
      match nextOccurrence (if occ.rule.completion_based then now else occ.due_date)
              occ.rule with
      | some d =>
          ({ occ with status := Status.done, completed_at := some now },
           some { id := newId,
                  parent_task_id := some (seriesRoot occ),
                  due_date := d,
                  status := Status.not_started,
                  completed_at := Option.none,
                  rule := occ.rule,
                  anchor := if occ.rule.completion_based then now else occ.due_date })
      | Option.none =>
          ({ occ with status := Status.done, completed_at := some now }, Option.none)

/-- Number of children spawned by one completion (zero or one). -/
def childCount (c : Option TaskOccurrence) : Nat :=
  match c with
  | some _ => 1
  | Option.none => 0

/-- A child due date recomputed from its own prior anchor under a new
rule; kept unchanged when the new rule yields no occurrence. -/
def recomputeDue (anchor : Date) (r : RecurrenceRule) (old : Date) : Date :=
  (nextOccurrence anchor r).getD old

/-- Per-task effect of editParentRecurrence: the root task gets the new
rule; when propagation is requested, each not-yet-completed child of the
root gets the new rule and a due date recomputed from its own prior
anchor; every other task is untouched. -/
def applyEdit (rootId : Nat) (newRule : RecurrenceRule) (propagate : Bool)
    (t : TaskOccurrence) : TaskOccurrence :=
  if t.id = rootId then { t with rule := newRule }
  else if propagate ∧ t.parent_task_id = some rootId ∧ t.status ≠ Status.done then
    { t with rule := newRule,
             due_date := recomputeDue t.anchor newRule t.due_date }
  else t

/-- Modelled from the spec: editParentRecurrence of section 4.2 (not in
the repository sources). Validates the new rule, replaces the root rule,
and touches already-spawned, not-yet-completed children only when
propagation is requested. -/
def editParentRecurrence (tasks : List TaskOccurrence) (rootId : Nat)
    (newRule : RecurrenceRule) (propagate : Bool) : Option (List TaskOccurrence) :=
  if validRule newRule then some (tasks.map (applyEdit rootId newRule propagate))
  else Option.none

/-! ## ChangeLedger -/

/-- Event types recorded in the ledger (spec section 3). -/
inductive EventType
  | created
  | status_changed
  | priority_changed
  | due_date_changed
  | name_changed
  | description_changed
  | note_changed
  | project_changed
  | tags_changed
  | today_changed
  | archived
deriving DecidableEq, Repr

/-- One append-only ledger record (spec section 3): the touched task, the
internal per-ledger sequence number, the kind of mutation, and uninterpreted
before/after snapshots of the changed field. -/
structure ChangeEvent where
  task_id : Nat
  seq : Nat
  event_type : EventType
  old_value : String
  new_value : String
deriving DecidableEq, Repr

/-- The ledger: the append-only event log plus the next sequence number to
assign. -/
structure Ledger where
  events : List ChangeEvent
  nextSeq : Nat
deriving DecidableEq, Repr

/-- The empty ledger. -/
def Ledger.empty : Ledger := ⟨[], 0⟩

/-- Modelled from the spec: record of section 4.3 (the backend
ChangeLedger is not in the repository sources). Appends one immutable
event stamped with a fresh, never-reused sequence number. -/
def record (l : Ledger) (taskId : Nat) (et : EventType) (ov nv : String) : Ledger :=
  { events := l.events ++ [⟨taskId, l.nextSeq, et, ov, nv⟩],
    nextSeq := l.nextSeq + 1 }

/-- Modelled from the spec: timeline of section 4.3 (not in the repository
sources). Returns the events of one task in log order. -/
def timeline (l : Ledger) (taskId : Nat) : List ChangeEvent :=
  l.events.filter (fun e => e.task_id == taskId)

/-- One requested ledger append (any writer, any task). -/
structure RecordOp where
  task_id : Nat
  event_type : EventType
  old_value : String
  new_value : String

/-- Run a sequence of record calls against a ledger. -/
def applyOps (l : Ledger) : List RecordOp → Ledger
  | [] => l
  | op :: ops => applyOps (record l op.task_id op.event_type op.old_value op.new_value) ops

/-! ## NotificationScheduler -/

/-- Summary cadence (spec section 3; SchedulerStatus.frequency in the
profile service). -/
inductive Frequency
  | daily
  | weekly
deriving DecidableEq, Repr

/-- Seconds in a cadence period. -/
def periodOf : Frequency → Nat
  | Frequency.daily => 86400
  | Frequency.weekly => 604800

/-- Scheduler state for one profile (spec section 3; mirrored by the
SchedulerStatus shape of the profile service). Times are seconds. -/
structure SchedulerState where
  enabled : Bool
  frequency : Frequency
  last_run : Option Nat
  next_run : Nat
deriving DecidableEq, Repr

/-- Observable actions of one scheduler tick, in the order they are
performed: persisting the advanced next_run always precedes delivery. -/
inductive SchedAction
  | persistNextRun (t : Nat)
  | deliver
deriving DecidableEq, Repr

/-- Modelled from the spec: one tick of the NotificationScheduler loop
(section 4.4; the backend scheduler is not in the repository sources).
When enabled and now is at or past next_run, it advances next_run to the
next cadence boundary and persists it, then delivers; otherwise it does
nothing. Returns the new state and the ordered action trace. -/
def tick (s : SchedulerState) (now : Nat) : SchedulerState × List SchedAction :=
  if s.enabled = true ∧ s.next_run ≤ now then
    ({ s with next_run := s.next_run + periodOf s.frequency, last_run := some now },
     [SchedAction.persistNextRun (s.next_run + periodOf s.frequency),
      SchedAction.deliver])
  else (s, [])

/-! ## Frontend utilities translated from the TypeScript sources -/

/-- An HTTP response as seen by handleAuthResponse (frontend/utils/http.ts):
the ok flag, the status code, and jsonMessage, which models the result of
awaiting response.json() and reading its message field — some m when the
body parses as JSON and message is a truthy string, none when parsing
fails or the message field is absent or falsy (so that the source
expression errorData.message or-else errorMessage is jsonMessage.getD
errorMessage). The 401 redirect side effect touches only the browser
location and is not part of the returned value. -/
structure HttpResponse where
  ok : Bool
  status : Nat
  jsonMessage : Option String
deriving DecidableEq, Repr

/-- handleAuthResponse from frontend/utils/http.ts: non-ok responses throw
(401 with a fixed message, others with the backend message when available,
else the supplied errorMessage); ok responses are returned unchanged. -/
def handleAuthResponse (response : HttpResponse) (errorMessage : String) :
    Except String HttpResponse :=
  if response.ok = false then
    if response.status = 401 then Except.error "Authentication required"
    else
      Except.error
        (match response.jsonMessage with
         | some m => m
         | Option.none => errorMessage)
  else Except.ok response

/-- The profile fields read by the four feature getters
(profileService, src/unnamed/part_000). Each field is an Option to model
that the fetched JSON may lack it (undefined in the source). -/
structure ProfileData where
  task_intelligence_enabled : Option Bool
  auto_suggest_next_actions_enabled : Option Bool
  productivity_assistant_enabled : Option Bool
  next_task_suggestion_enabled : Option Bool
deriving DecidableEq, Repr

/-- The outcome of awaiting fetchProfile: the parsed profile, or the error
thrown by the fetch or by handleAuthResponse. -/
def FetchOutcome := Except String ProfileData

/-- getTaskIntelligenceEnabled (src/unnamed/part_000): the field when the
fetch succeeds and the field is defined, true otherwise. -/
def getTaskIntelligenceEnabled (fetched : Except String ProfileData) : Bool :=
  match fetched with
  | Except.ok profile =>
      match profile.task_intelligence_enabled with
      | some b => b
      | Option.none => true
  | Except.error _ => true

/-- getAutoSuggestNextActionsEnabled (src/unnamed/part_000). -/
def getAutoSuggestNextActionsEnabled (fetched : Except String ProfileData) : Bool :=
  match fetched with
  | Except.ok profile =>
      match profile.auto_suggest_next_actions_enabled with
      | some b => b
      | Option.none => true
  | Except.error _ => true

/-- getProductivityAssistantEnabled (src/unnamed/part_000). -/
def getProductivityAssistantEnabled (fetched : Except String ProfileData) : Bool :=
  match fetched with
  | Except.ok profile =>
      match profile.productivity_assistant_enabled with
      | some b => b
      | Option.none => true
  | Except.error _ => true

/-- getNextTaskSuggestionEnabled (src/unnamed/part_000). -/
def getNextTaskSuggestionEnabled (fetched : Except String ProfileData) : Bool :=
  match fetched with
  | Except.ok profile =>
      match profile.next_task_suggestion_enabled with
      | some b => b
      | Option.none => true
  | Except.error _ => true

/-- getStatusLabel from the TaskTimeline component (src/unnamed/part_003):
a switch over the numeric status with a default branch. -/
def getStatusLabel (status : Int) : String :=
  if status = 0 then "Pending"
  else if status = 1 then "In Progress"
  else if status = 2 then "Completed"
  else if status = 3 then "Archived"
  else "Unknown"

/-- getPriorityLabel from the TaskTimeline component (src/unnamed/part_003). -/
def getPriorityLabel (priority : Int) : String :=
  if priority = 0 then "Low"
  else if priority = 1 then "Medium"
  else if priority = 2 then "High"
  else "None"

/-! ## Calendar lemmas -/

theorem daysInMonth_ge (y m : Nat) : 28 ≤ daysInMonth y m := by
  unfold daysInMonth
  split
  · split <;> omega
  · split <;> omega

theorem daysInMonth_le (y m : Nat) : daysInMonth y m ≤ 31 := by
  unfold daysInMonth
  split
  · split <;> omega
  · split <;> omega

theorem nextDay_valid (x : Date) (hx : x.Valid) : (nextDay x).Valid := by
  obtain ⟨h1, h2, h3, h4⟩ := hx
  have g1 := daysInMonth_ge x.y (x.m + 1)
  have g2 := daysInMonth_ge (x.y + 1) 1
  unfold nextDay
  split
  · show Date.Valid ⟨x.y, x.m, x.d + 1⟩
    unfold Date.Valid
    dsimp only
    omega
  · split
    · show Date.Valid ⟨x.y, x.m + 1, 1⟩
      unfold Date.Valid
      dsimp only
      omega
    · show Date.Valid ⟨x.y + 1, 1, 1⟩
      unfold Date.Valid
      dsimp only
      omega

theorem nextDay_lt (x : Date) : Date.lt x (nextDay x) := by
  unfold nextDay
  split
  · show Date.lt x ⟨x.y, x.m, x.d + 1⟩
    unfold Date.lt
    dsimp only
    omega
  · split
    · show Date.lt x ⟨x.y, x.m + 1, 1⟩
      unfold Date.lt
      dsimp only
      omega
    · show Date.lt x ⟨x.y + 1, 1, 1⟩
      unfold Date.lt
      dsimp only
      omega

theorem Date.lt_trans {a b c : Date} (h1 : Date.lt a b) (h2 : Date.lt b c) :
    Date.lt a c := by
  unfold Date.lt at *
  omega

theorem addDays_valid (n : Nat) (x : Date) (hx : x.Valid) : (addDays n x).Valid := by
  induction n generalizing x with
  | zero => exact hx
  | succ k ih => exact ih (nextDay x) (nextDay_valid x hx)

theorem addDays_lt (n : Nat) (x : Date) (hx : x.Valid) (hn : 1 ≤ n) :
    Date.lt x (addDays n x) := by
  induction n generalizing x with
  | zero => omega
  | succ k ih =>
    show Date.lt x (addDays k (nextDay x))
    rcases Nat.eq_zero_or_pos k with hk | hk
    · subst hk; exact nextDay_lt x
    · exact Date.lt_trans (nextDay_lt x) (ih (nextDay x) (nextDay_valid x hx) hk)

theorem addMonths_spec (x : Date) (n : Nat) :
    12 * addMonthsY x n + (addMonthsM x n - 1) = 12 * x.y + (x.m - 1) + n ∧
    1 ≤ addMonthsM x n ∧ addMonthsM x n ≤ 12 := by
  unfold addMonthsY addMonthsM
  have hd := Nat.div_add_mod (12 * x.y + (x.m - 1) + n) 12
  have hm := Nat.mod_lt (12 * x.y + (x.m - 1) + n) (show 0 < 12 by omega)
  omega

theorem addMonths_lt (x : Date) (n : Nat) (hm1 : 1 ≤ x.m) (hm2 : x.m ≤ 12)
    (hn : 1 ≤ n) (d : Nat) :
    Date.lt x ⟨addMonthsY x n, addMonthsM x n, d⟩ := by
  obtain ⟨hspec, hlo, hhi⟩ := addMonths_spec x n
  unfold Date.lt
  simp only
  omega

/-- Shifting the day component shifts the day number by the same amount:
the day number is linear in the day field. -/
theorem dayNumber_day (y m j : Nat) :
    dayNumber ⟨y, m, j⟩ = daysBeforeYear y + daysBeforeMonth y m + j := rfl

/-! ## Rule validation lemmas -/

theorem validRule_interval {r : RecurrenceRule} (h : validRule r = true) :
    1 ≤ r.interval := by
  unfold validRule at h
  simp only [Bool.and_eq_true, decide_eq_true_eq] at h
  exact h.1.1.1.1

theorem validRule_weekday {r : RecurrenceRule} (h : validRule r = true)
    {w : Nat} (hw : r.weekday = some w) : w ≤ 6 := by
  unfold validRule at h
  simp only [Bool.and_eq_true, decide_eq_true_eq] at h
  have h2 := h.1.1.1.2
  rw [hw] at h2
  simpa using h2

theorem validRule_month_day {r : RecurrenceRule} (h : validRule r = true)
    {md : Nat} (hmd : r.month_day = some md) : 1 ≤ md ∧ md ≤ 31 := by
  unfold validRule at h
  simp only [Bool.and_eq_true, decide_eq_true_eq] at h
  have h2 := h.1.1.2
  rw [hmd] at h2
  simpa using h2

theorem validRule_week_of_month {r : RecurrenceRule} (h : validRule r = true)
    {k : Nat} (hk : r.week_of_month = some k) : 1 ≤ k ∧ k ≤ 5 := by
  unfold validRule at h
  simp only [Bool.and_eq_true, decide_eq_true_eq] at h
  have h2 := h.1.2
  rw [hk] at h2
  simpa using h2

theorem validRule_monthly_weekday {r : RecurrenceRule} (h : validRule r = true)
    (ht : r.type = RecurrenceType.monthly_weekday) :
    r.weekday.isSome = true ∧ r.week_of_month.isSome = true := by
  unfold validRule at h
  simp only [Bool.and_eq_true, decide_eq_true_eq] at h
  have h2 := h.2
  rw [ht] at h2
  simpa [Bool.and_eq_true] using h2

/-! ## nextDate and nextOccurrence lemmas -/

theorem nextDate_some (anchor : Date) (rule : RecurrenceRule)
    (ht : rule.type ≠ RecurrenceType.none) :
    ∃ c, nextDate anchor rule = some c := by
  unfold nextDate
  cases htype : rule.type
  · exact absurd htype ht
  · exact ⟨_, rfl⟩
  · cases hw : rule.weekday
    · exact ⟨_, rfl⟩
    · exact ⟨_, rfl⟩
  · exact ⟨_, rfl⟩
  · exact ⟨_, rfl⟩
  · exact ⟨_, rfl⟩

theorem nextDate_lt (anchor : Date) (rule : RecurrenceRule) (hv : anchor.Valid)
    (hr : validRule rule = true) {c : Date} (hc : nextDate anchor rule = some c) :
    Date.lt anchor c := by
  have hint := validRule_interval hr
  obtain ⟨hm1, hm2, hd1, hd2⟩ := hv
  unfold nextDate at hc
  cases htype : rule.type <;> rw [htype] at hc
  · exact absurd hc (by simp)
  · cases hc
    exact addDays_lt rule.interval anchor ⟨hm1, hm2, hd1, hd2⟩ hint
  · cases hw : rule.weekday <;> rw [hw] at hc <;> cases hc
    · exact addDays_lt _ anchor ⟨hm1, hm2, hd1, hd2⟩ (by omega)
    · refine addDays_lt _ anchor ⟨hm1, hm2, hd1, hd2⟩ ?_
      split <;> omega
  · cases hc
    exact addMonths_lt anchor rule.interval hm1 hm2 hint _
  · cases hc
    exact addMonths_lt anchor rule.interval hm1 hm2 hint _
  · cases hc
    exact addMonths_lt anchor rule.interval hm1 hm2 hint _

/-- Claim C1: for every rule with type other than none and every valid
anchor, nextOccurrence yields a date strictly after the anchor, and it
yields none exactly when end_date is set and the computed next date falls
on or after end_date. -/
theorem C1_nextOccurrence_after_anchor_and_end_date
    (anchor : Date) (rule : RecurrenceRule)
    (hv : anchor.Valid) (hr : validRule rule = true)
    (ht : rule.type ≠ RecurrenceType.none) :
    (∀ d, nextOccurrence anchor rule = some d → Date.lt anchor d) ∧
    (nextOccurrence anchor rule = Option.none ↔
      ∃ e c, rule.end_date = some e ∧ nextDate anchor rule = some c ∧ Date.le e c) := by
  obtain ⟨c, hc⟩ := nextDate_some anchor rule ht
  have hlt : Date.lt anchor c := nextDate_lt anchor rule hv hr hc
  cases hed : rule.end_date with
  | none =>
    have hkey : nextOccurrence anchor rule = some c := by
      unfold nextOccurrence
      rw [hc, hed]
    constructor
    · intro d hd
      rw [hkey] at hd
      cases hd
      exact hlt
    · rw [hkey]
      constructor
      · intro habs
        exact absurd habs (by simp)
      · rintro ⟨e2, c2, he2, hc2, hle2⟩
        exact absurd he2 (by simp)
  | some e =>
    have hkey : nextOccurrence anchor rule =
        (if Date.le e c then Option.none else some c) := by
      unfold nextOccurrence
      rw [hc, hed]
    constructor
    · intro d hd
      rw [hkey] at hd
      split at hd
      · exact absurd hd (by simp)
      · cases hd
        exact hlt
    · rw [hkey]
      split
      · rename_i hle
        constructor
        · intro _
          exact ⟨e, c, rfl, hc, hle⟩
        · intro _
          rfl
      · rename_i hnle
        constructor
        · intro habs
          exact absurd habs (by simp)
        · rintro ⟨e2, c2, he2, hc2, hle2⟩
          rw [hc] at hc2
          cases he2
          cases hc2
          exact absurd hle2 hnle

/-- Witness for claim C1 at a concrete daily rule with a far-future
end date. -/
theorem C1_witness :
    (∀ d, nextOccurrence ⟨2024, 1, 1⟩
        ⟨RecurrenceType.daily, 1, Option.none, Option.none, Option.none,
         some ⟨2030, 1, 1⟩, false⟩ = some d →
      Date.lt ⟨2024, 1, 1⟩ d) ∧
    (nextOccurrence ⟨2024, 1, 1⟩
        ⟨RecurrenceType.daily, 1, Option.none, Option.none, Option.none,
         some ⟨2030, 1, 1⟩, false⟩ = Option.none ↔
      ∃ e c, (⟨RecurrenceType.daily, 1, Option.none, Option.none, Option.none,
          some ⟨2030, 1, 1⟩, false⟩ : RecurrenceRule).end_date = some e ∧
        nextDate ⟨2024, 1, 1⟩
          ⟨RecurrenceType.daily, 1, Option.none, Option.none, Option.none,
           some ⟨2030, 1, 1⟩, false⟩ = some c ∧ Date.le e c) :=
  C1_nextOccurrence_after_anchor_and_end_date _ _ (by decide) (by decide) (by decide)

/-! ## Claim C5: monthly clamping -/

/-- A monthly rule repeating on day 31 of each month, used by the C5
statements. -/
def c5rule : RecurrenceRule :=
  ⟨RecurrenceType.monthly, 1, Option.none, some 31, Option.none, Option.none, false⟩

/-- Claim C5 counterexample: with month_day = 31, an anchor in April
(here April 30) is advanced by one month into May, so nextOccurrence
returns May 31 — not April 30 as the claim states for an April anchor. -/
theorem C5_counterexample :
    nextOccurrence ⟨2024, 4, 30⟩ c5rule = some ⟨2024, 5, 31⟩ ∧
    (⟨2024, 5, 31⟩ : Date) ≠ ⟨2024, 4, 30⟩ := by decide

/-- Claim C5 (amended): for a monthly rule, nextOccurrence advances the
anchor by interval months, lands on month_day if set (else the anchor
day-of-month), clamps to the last valid day of the target month, and the
result is always a valid calendar date; in particular month_day = 31
anchored on March 31 yields April 30, and advancing again from April 30
yields May 31 — never April 31. -/
theorem C5_monthly_clamp (anchor : Date) (rule : RecurrenceRule)
    (hv : anchor.Valid) (hr : validRule rule = true)
    (ht : rule.type = RecurrenceType.monthly) (he : rule.end_date = Option.none) :
    (∃ d, nextOccurrence anchor rule = some d ∧
       12 * d.y + (d.m - 1) = 12 * anchor.y + (anchor.m - 1) + rule.interval ∧
       d.d = min (rule.month_day.getD anchor.d) (daysInMonth d.y d.m) ∧
       d.Valid) ∧
    (nextOccurrence ⟨2024, 3, 31⟩ c5rule = some ⟨2024, 4, 30⟩ ∧
     nextOccurrence ⟨2024, 4, 30⟩ c5rule = some ⟨2024, 5, 31⟩) := by
  obtain ⟨y2, hy2⟩ : ∃ v, addMonthsY anchor rule.interval = v := ⟨_, rfl⟩
  obtain ⟨m2, hm2⟩ : ∃ v, addMonthsM anchor rule.interval = v := ⟨_, rfl⟩
  have hsp := addMonths_spec anchor rule.interval
  rw [hy2, hm2] at hsp
  obtain ⟨hsp1, hsp2, hsp3⟩ := hsp
  have hdim := daysInMonth_ge y2 m2
  have hnd : nextDate anchor rule =
      some ⟨y2, m2, min (rule.month_day.getD anchor.d) (daysInMonth y2 m2)⟩ := by
    simp only [nextDate, ht]
    rw [hy2, hm2]
  have hno : nextOccurrence anchor rule =
      some ⟨y2, m2, min (rule.month_day.getD anchor.d) (daysInMonth y2 m2)⟩ := by
    unfold nextOccurrence
    rw [hnd, he]
  have htarget : 1 ≤ rule.month_day.getD anchor.d := by
    cases hmd : rule.month_day with
    | none =>
      simp only [Option.getD_none]
      exact hv.2.2.1
    | some md =>
      simp only [Option.getD_some]
      exact (validRule_month_day hr hmd).1
  refine ⟨⟨⟨y2, m2, min (rule.month_day.getD anchor.d) (daysInMonth y2 m2)⟩,
      hno, ?_, ?_, ?_⟩, by decide, by decide⟩
  · dsimp only
    omega
  · dsimp only
  · unfold Date.Valid
    dsimp only
    omega

/-- Witness for the amended claim C5 at a concrete monthly rule: the
February target of a January 31 anchor is clamped. -/
theorem C5_witness :
    (∃ d, nextOccurrence ⟨2024, 1, 31⟩ c5rule = some d ∧
       12 * d.y + (d.m - 1) = 12 * 2024 + (1 - 1) + c5rule.interval ∧
       d.d = min (c5rule.month_day.getD 31) (daysInMonth d.y d.m) ∧
       d.Valid) ∧
    (nextOccurrence ⟨2024, 3, 31⟩ c5rule = some ⟨2024, 4, 30⟩ ∧
     nextOccurrence ⟨2024, 4, 30⟩ c5rule = some ⟨2024, 5, 31⟩) :=
  C5_monthly_clamp ⟨2024, 1, 31⟩ c5rule (by decide) (by decide) rfl rfl

/-! ## Claim C6: monthly_weekday with week_of_month = 5 -/

/-- A rule repeating on the last Monday of each month, used by the C6
witness. -/
def c6rule : RecurrenceRule :=
  ⟨RecurrenceType.monthly_weekday, 1, some 1, Option.none, some 5, Option.none, false⟩

/-- Claim C6: for a monthly_weekday rule with week_of_month = 5 (last)
and no end date, nextOccurrence always returns a date (never none), that
date falls on the configured weekday, is a valid day of the target month,
and no later day of that month falls on the same weekday — so it is the
last such weekday whether the month has 4 or 5 of them. -/
theorem C6_monthly_weekday_last (anchor : Date) (rule : RecurrenceRule)
    (_hv : anchor.Valid) (hr : validRule rule = true)
    (ht : rule.type = RecurrenceType.monthly_weekday)
    (hwom : rule.week_of_month = some 5) (he : rule.end_date = Option.none)
    {w : Nat} (hw : rule.weekday = some w) :
    ∃ d, nextOccurrence anchor rule = some d ∧ d.Valid ∧
      weekdayOf d = w ∧
      ∀ j, d.d < j → j ≤ daysInMonth d.y d.m → weekdayOf ⟨d.y, d.m, j⟩ ≠ w := by
  have hw6 : w ≤ 6 := validRule_weekday hr hw
  obtain ⟨y2, hy2⟩ : ∃ v, addMonthsY anchor rule.interval = v := ⟨_, rfl⟩
  obtain ⟨m2, hm2⟩ : ∃ v, addMonthsM anchor rule.interval = v := ⟨_, rfl⟩
  have hsp := addMonths_spec anchor rule.interval
  rw [hy2, hm2] at hsp
  obtain ⟨hsp1, hsp2, hsp3⟩ := hsp
  have hdim28 := daysInMonth_ge y2 m2
  have hdim31 := daysInMonth_le y2 m2
  obtain ⟨B, hB⟩ : ∃ v, daysBeforeYear y2 + daysBeforeMonth y2 m2 = v := ⟨_, rfl⟩
  have hwd : ∀ j, weekdayOf ⟨y2, m2, j⟩ = (B + j) % 7 := by
    intro j
    unfold weekdayOf
    rw [dayNumber_day, hB]
  have hfirstwd : (B + firstWeekdayDay y2 m2 w) % 7 = w := by
    unfold firstWeekdayDay
    rw [hwd 1]
    omega
  have hfb : 1 ≤ firstWeekdayDay y2 m2 w ∧ firstWeekdayDay y2 m2 w ≤ 7 := by
    unfold firstWeekdayDay
    omega
  have hD5 : nthWeekdayDay y2 m2 w 5 =
      (if firstWeekdayDay y2 m2 w + 28 ≤ daysInMonth y2 m2
       then firstWeekdayDay y2 m2 w + 28
       else firstWeekdayDay y2 m2 w + 21) := by
    unfold nthWeekdayDay
    simp
  have hDchar : 1 ≤ nthWeekdayDay y2 m2 w 5 ∧
      nthWeekdayDay y2 m2 w 5 ≤ daysInMonth y2 m2 ∧
      daysInMonth y2 m2 < nthWeekdayDay y2 m2 w 5 + 7 ∧
      (B + nthWeekdayDay y2 m2 w 5) % 7 = w := by
    rw [hD5]
    split <;> omega
  have hnd : nextDate anchor rule = some ⟨y2, m2, nthWeekdayDay y2 m2 w 5⟩ := by
    simp only [nextDate, ht, hw, hwom, Option.getD_some]
    rw [hy2, hm2]
  have hno : nextOccurrence anchor rule = some ⟨y2, m2, nthWeekdayDay y2 m2 w 5⟩ := by
    unfold nextOccurrence
    rw [hnd, he]
  refine ⟨⟨y2, m2, nthWeekdayDay y2 m2 w 5⟩, hno, ?_, ?_, ?_⟩
  · unfold Date.Valid
    dsimp only
    omega
  · dsimp only
    rw [hwd]
    exact hDchar.2.2.2
  · dsimp only
    intro j h1 h2 habs
    rw [hwd j] at habs
    omega

/-- Witness for claim C6: February 2023 has only four Mondays; the last
Monday rule lands on the fourth one, February 27, not on none. -/
theorem C6_witness :
    nextOccurrence ⟨2023, 1, 15⟩ c6rule = some ⟨2023, 2, 27⟩ ∧
    (∃ d, nextOccurrence ⟨2023, 1, 15⟩ c6rule = some d ∧ d.Valid ∧
      weekdayOf d = 1 ∧
      ∀ j, d.d < j → j ≤ daysInMonth d.y d.m → weekdayOf ⟨d.y, d.m, j⟩ ≠ 1) :=
  ⟨by decide,
   C6_monthly_weekday_last ⟨2023, 1, 15⟩ c6rule (by decide) (by decide) rfl rfl rfl rfl⟩

/-! ## Claim C2: idempotent completion -/

/-- An uncompleted occurrence of a daily series whose end date has
already been reached, used by the C2 counterexample. -/
def c2occ : TaskOccurrence :=
  ⟨1, Option.none, ⟨2024, 1, 1⟩, Status.not_started, Option.none,
   ⟨RecurrenceType.daily, 1, Option.none, Option.none, Option.none,
    some ⟨2024, 1, 2⟩, false⟩, ⟨2024, 1, 1⟩⟩

/-- Claim C2 counterexample: an occurrence whose embedded rule has type
daily (not none) but whose series has reached its end date spawns zero
children on its first completion, not exactly one as the claim states. -/
theorem C2_counterexample :
    c2occ.rule.type ≠ RecurrenceType.none ∧
    c2occ.status ≠ Status.done ∧
    childCount (completeOccurrence c2occ ⟨2024, 1, 1⟩ 2).2 = 0 := by decide

/-- Claim C2 (amended): completeOccurrence is idempotent: for an
uncompleted occurrence whose embedded rule has type other than none, the
first completion marks it done and spawns exactly one child when
nextOccurrence yields a date (and none when the series has terminated at
its end date); re-invoking completeOccurrence on the completed result is a
no-op that spawns no additional child and changes no state, so completing
twice in sequence yields exactly as many children as the first completion
— at most one. -/
theorem C2_complete_idempotent (occ : TaskOccurrence) (now now2 : Date)
    (id1 id2 : Nat) (h1 : occ.status ≠ Status.done)
    (h2 : occ.rule.type ≠ RecurrenceType.none) :
    (completeOccurrence occ now id1).1.status = Status.done ∧
    (completeOccurrence occ now id1).1.completed_at = some now ∧
    ((nextOccurrence (if occ.rule.completion_based then now else occ.due_date)
        occ.rule).isSome = true →
      childCount (completeOccurrence occ now id1).2 = 1) ∧
    (nextOccurrence (if occ.rule.completion_based then now else occ.due_date)
        occ.rule = Option.none →
      childCount (completeOccurrence occ now id1).2 = 0) ∧
    completeOccurrence (completeOccurrence occ now id1).1 now2 id2 =
      ((completeOccurrence occ now id1).1, Option.none) ∧
    childCount (completeOccurrence occ now id1).2 +
      childCount (completeOccurrence (completeOccurrence occ now id1).1 now2 id2).2 =
      childCount (completeOccurrence occ now id1).2 := by
  have hdone : ({ occ with status := Status.done, completed_at := some now } :
      TaskOccurrence).status = Status.done := rfl
  have hc2 : completeOccurrence
      { occ with status := Status.done, completed_at := some now } now2 id2 =
      ({ occ with status := Status.done, completed_at := some now }, Option.none) := by
    unfold completeOccurrence
    rw [if_pos hdone]
  cases hno : nextOccurrence (if occ.rule.completion_based then now else occ.due_date)
      occ.rule with
  | none =>
    have hc : completeOccurrence occ now id1 =
        ({ occ with status := Status.done, completed_at := some now }, Option.none) := by
      unfold completeOccurrence
      rw [if_neg h1, if_neg h2, hno]
    rw [hc, hc2]
    refine ⟨rfl, rfl, ?_, ?_, rfl, rfl⟩
    · intro habs
      exact absurd habs (by simp)
    · intro _
      rfl
  | some d =>
    have hc : completeOccurrence occ now id1 =
        ({ occ with status := Status.done, completed_at := some now },
         some { id := id1,
                parent_task_id := some (seriesRoot occ),
                due_date := d,
                status := Status.not_started,
                completed_at := Option.none,
                rule := occ.rule,
                anchor := if occ.rule.completion_based then now else occ.due_date }) := by
      unfold completeOccurrence
      rw [if_neg h1, if_neg h2, hno]
    rw [hc, hc2]
    refine ⟨rfl, rfl, ?_, ?_, rfl, rfl⟩
    · intro _
      rfl
    · intro habs
      exact absurd habs (by simp)

/-- Witness for the amended claim C2 at a live daily series: the first
completion spawns one child, the second is a no-op. -/
theorem C2_witness :
    (completeOccurrence
        ⟨1, Option.none, ⟨2024, 1, 5⟩, Status.not_started, Option.none,
         ⟨RecurrenceType.daily, 1, Option.none, Option.none, Option.none,
          Option.none, false⟩, ⟨2024, 1, 4⟩⟩ ⟨2024, 1, 5⟩ 10).1.status = Status.done ∧
    (completeOccurrence
        ⟨1, Option.none, ⟨2024, 1, 5⟩, Status.not_started, Option.none,
         ⟨RecurrenceType.daily, 1, Option.none, Option.none, Option.none,
          Option.none, false⟩, ⟨2024, 1, 4⟩⟩ ⟨2024, 1, 5⟩ 10).1.completed_at =
      some ⟨2024, 1, 5⟩ ∧
    ((nextOccurrence ⟨2024, 1, 5⟩
        ⟨RecurrenceType.daily, 1, Option.none, Option.none, Option.none,
         Option.none, false⟩).isSome = true →
      childCount (completeOccurrence
        ⟨1, Option.none, ⟨2024, 1, 5⟩, Status.not_started, Option.none,
         ⟨RecurrenceType.daily, 1, Option.none, Option.none, Option.none,
          Option.none, false⟩, ⟨2024, 1, 4⟩⟩ ⟨2024, 1, 5⟩ 10).2 = 1) ∧
    (nextOccurrence ⟨2024, 1, 5⟩
        ⟨RecurrenceType.daily, 1, Option.none, Option.none, Option.none,
         Option.none, false⟩ = Option.none →
      childCount (completeOccurrence
        ⟨1, Option.none, ⟨2024, 1, 5⟩, Status.not_started, Option.none,
         ⟨RecurrenceType.daily, 1, Option.none, Option.none, Option.none,
          Option.none, false⟩, ⟨2024, 1, 4⟩⟩ ⟨2024, 1, 5⟩ 10).2 = 0) ∧
    completeOccurrence (completeOccurrence
        ⟨1, Option.none, ⟨2024, 1, 5⟩, Status.not_started, Option.none,
         ⟨RecurrenceType.daily, 1, Option.none, Option.none, Option.none,
          Option.none, false⟩, ⟨2024, 1, 4⟩⟩ ⟨2024, 1, 5⟩ 10).1 ⟨2024, 1, 6⟩ 11 =
      ((completeOccurrence
        ⟨1, Option.none, ⟨2024, 1, 5⟩, Status.not_started, Option.none,
         ⟨RecurrenceType.daily, 1, Option.none, Option.none, Option.none,
          Option.none, false⟩, ⟨2024, 1, 4⟩⟩ ⟨2024, 1, 5⟩ 10).1, Option.none) ∧
    childCount (completeOccurrence
        ⟨1, Option.none, ⟨2024, 1, 5⟩, Status.not_started, Option.none,
         ⟨RecurrenceType.daily, 1, Option.none, Option.none, Option.none,
          Option.none, false⟩, ⟨2024, 1, 4⟩⟩ ⟨2024, 1, 5⟩ 10).2 +
      childCount (completeOccurrence (completeOccurrence
        ⟨1, Option.none, ⟨2024, 1, 5⟩, Status.not_started, Option.none,
         ⟨RecurrenceType.daily, 1, Option.none, Option.none, Option.none,
          Option.none, false⟩, ⟨2024, 1, 4⟩⟩ ⟨2024, 1, 5⟩ 10).1 ⟨2024, 1, 6⟩ 11).2 =
      childCount (completeOccurrence
        ⟨1, Option.none, ⟨2024, 1, 5⟩, Status.not_started, Option.none,
         ⟨RecurrenceType.daily, 1, Option.none, Option.none, Option.none,
          Option.none, false⟩, ⟨2024, 1, 4⟩⟩ ⟨2024, 1, 5⟩ 10).2 :=
  C2_complete_idempotent
    ⟨1, Option.none, ⟨2024, 1, 5⟩, Status.not_started, Option.none,
     ⟨RecurrenceType.daily, 1, Option.none, Option.none, Option.none,
      Option.none, false⟩, ⟨2024, 1, 4⟩⟩ ⟨2024, 1, 5⟩ ⟨2024, 1, 6⟩ 10 11
    (by decide) (by decide)

/-! ## Claim C3: scheduler fires once per boundary -/

/-- Claim C3: for an enabled daily profile, a tick strictly before
next_run sends nothing and leaves the state unchanged; the first tick at
or after next_run produces exactly one delivery, with the advanced
next_run (old next_run plus 24h) persisted before delivery begins (the
persist action precedes deliver in the trace); and any further tick
before the new boundary sends nothing. -/
theorem C3_scheduler_single_fire (s : SchedulerState)
    (hen : s.enabled = true) (hf : s.frequency = Frequency.daily) :
    (∀ now, now < s.next_run → tick s now = (s, [])) ∧
    (∀ now, s.next_run ≤ now →
      (tick s now).1.next_run = s.next_run + 86400 ∧
      (tick s now).2 =
        [SchedAction.persistNextRun (s.next_run + 86400), SchedAction.deliver] ∧
      (tick s now).2.count SchedAction.deliver = 1 ∧
      ∀ later, later < s.next_run + 86400 →
        tick (tick s now).1 later = ((tick s now).1, [])) := by
  constructor
  · intro now hlt
    unfold tick
    rw [if_neg]
    intro hcon
    omega
  · intro now hge
    have htick : tick s now =
        ({ s with next_run := s.next_run + periodOf s.frequency,
                  last_run := some now },
         [SchedAction.persistNextRun (s.next_run + periodOf s.frequency),
          SchedAction.deliver]) := by
      unfold tick
      rw [if_pos ⟨hen, hge⟩]
    rw [htick, hf]
    refine ⟨rfl, rfl, rfl, ?_⟩
    intro later hlater
    unfold tick
    rw [if_neg]
    intro hcon
    have hle : s.next_run + periodOf Frequency.daily ≤ later := hcon.2
    have hle2 : s.next_run + 86400 ≤ later := hle
    omega

/-- Witness for claim C3 at a concrete enabled daily profile with
next_run = 1000. -/
theorem C3_witness :
    (∀ now, now < 1000 →
      tick ⟨true, Frequency.daily, Option.none, 1000⟩ now =
        (⟨true, Frequency.daily, Option.none, 1000⟩, [])) ∧
    (∀ now, 1000 ≤ now →
      (tick ⟨true, Frequency.daily, Option.none, 1000⟩ now).1.next_run = 1000 + 86400 ∧
      (tick ⟨true, Frequency.daily, Option.none, 1000⟩ now).2 =
        [SchedAction.persistNextRun (1000 + 86400), SchedAction.deliver] ∧
      (tick ⟨true, Frequency.daily, Option.none, 1000⟩ now).2.count
        SchedAction.deliver = 1 ∧
      ∀ later, later < 1000 + 86400 →
        tick (tick ⟨true, Frequency.daily, Option.none, 1000⟩ now).1 later =
          ((tick ⟨true, Frequency.daily, Option.none, 1000⟩ now).1, [])) :=
  C3_scheduler_single_fire ⟨true, Frequency.daily, Option.none, 1000⟩ rfl rfl

/-! ## Claim C4: ledger ordering -/

/-- The ledger invariant: the log is strictly increasing in sequence
numbers and every assigned number is below the next one to hand out. -/
def ledgerInv (l : Ledger) : Prop :=
  List.Pairwise (fun a b => a.seq < b.seq) l.events ∧
  ∀ e ∈ l.events, e.seq < l.nextSeq

theorem ledgerInv_empty : ledgerInv Ledger.empty := by
  constructor
  · exact List.Pairwise.nil
  · intro e he
    simp [Ledger.empty] at he

theorem record_inv (l : Ledger) (tid : Nat) (et : EventType) (ov nv : String)
    (h : ledgerInv l) : ledgerInv (record l tid et ov nv) := by
  obtain ⟨hp, hb⟩ := h
  unfold ledgerInv record
  dsimp only
  constructor
  · rw [List.pairwise_append]
    refine ⟨hp, List.pairwise_singleton _ _, ?_⟩
    intro a ha b hbm
    rw [List.mem_singleton] at hbm
    subst hbm
    exact hb a ha
  · intro e he
    rw [List.mem_append] at he
    rcases he with he | he
    · have := hb e he
      omega
    · rw [List.mem_singleton] at he
      subst he
      dsimp only
      omega

theorem applyOps_inv (ops : List RecordOp) (l : Ledger) (h : ledgerInv l) :
    ledgerInv (applyOps l ops) := by
  induction ops generalizing l with
  | nil => exact h
  | cons op ops ih =>
    exact ih _ (record_inv l op.task_id op.event_type op.old_value op.new_value h)

/-- Claim C4: starting from the empty ledger, any sequence of record
calls — including several events for one logical edit and interleaved
writes to other tasks — leaves the whole log strictly increasing in
sequence numbers (so numbers are never reused), and timeline of any task
returns only events of that task, in strictly increasing and hence
non-decreasing sequence order. -/
theorem C4_ledger_ordering (ops : List RecordOp) (tid : Nat) :
    List.Pairwise (fun a b => a.seq < b.seq) (applyOps Ledger.empty ops).events ∧
    (∀ e ∈ timeline (applyOps Ledger.empty ops) tid, e.task_id = tid) ∧
    List.Pairwise (fun a b => a.seq < b.seq)
      (timeline (applyOps Ledger.empty ops) tid) ∧
    List.Pairwise (fun a b => a.seq ≤ b.seq)
      (timeline (applyOps Ledger.empty ops) tid) := by
  have hinv := applyOps_inv ops Ledger.empty ledgerInv_empty
  have hp := hinv.1
  have hs : List.Sublist (timeline (applyOps Ledger.empty ops) tid)
      (applyOps Ledger.empty ops).events := by
    unfold timeline
    exact List.filter_sublist _
  have hfp := List.Pairwise.sublist hs hp
  refine ⟨hp, ?_, hfp, hfp.imp (fun hab => Nat.le_of_lt hab)⟩
  intro e he
  unfold timeline at he
  rw [List.mem_filter] at he
  simpa using he.2

/-- Witness for claim C4 at a concrete interleaved operation list. -/
theorem C4_witness :
    List.Pairwise (fun a b => a.seq < b.seq)
      (applyOps Ledger.empty
        [⟨1, EventType.created, "", ""⟩,
         ⟨2, EventType.created, "", ""⟩,
         ⟨1, EventType.status_changed, "0", "2"⟩]).events ∧
    (∀ e ∈ timeline (applyOps Ledger.empty
        [⟨1, EventType.created, "", ""⟩,
         ⟨2, EventType.created, "", ""⟩,
         ⟨1, EventType.status_changed, "0", "2"⟩]) 1, e.task_id = 1) ∧
    List.Pairwise (fun a b => a.seq < b.seq)
      (timeline (applyOps Ledger.empty
        [⟨1, EventType.created, "", ""⟩,
         ⟨2, EventType.created, "", ""⟩,
         ⟨1, EventType.status_changed, "0", "2"⟩]) 1) ∧
    List.Pairwise (fun a b => a.seq ≤ b.seq)
      (timeline (applyOps Ledger.empty
        [⟨1, EventType.created, "", ""⟩,
         ⟨2, EventType.created, "", ""⟩,
         ⟨1, EventType.status_changed, "0", "2"⟩]) 1) :=
  C4_ledger_ordering
    [⟨1, EventType.created, "", ""⟩,
     ⟨2, EventType.created, "", ""⟩,
     ⟨1, EventType.status_changed, "0", "2"⟩] 1

/-! ## Claim C7: editParentRecurrence frame conditions -/

theorem forall2_map_self {α β : Type} (f : α → β) (R : α → β → Prop)
    (l : List α) (h : ∀ a ∈ l, R a (f a)) : List.Forall₂ R l (l.map f) := by
  induction l with
  | nil => exact List.Forall₂.nil
  | cons x xs ih =>
    exact List.Forall₂.cons (h x (by simp)) (ih (fun a ha => h a (by simp [ha])))

/-- Claim C7: editParentRecurrence without propagation replaces only the
root rule — every other task, in particular every already-spawned,
not-yet-completed child, keeps its embedded rule and due_date unchanged;
with propagation, each not-yet-completed child of the root gets the new
rule and a due_date recomputed from its own prior anchor under the new
rule, while completed children and unrelated tasks are untouched. -/
theorem C7_edit_parent_frame (tasks : List TaskOccurrence) (rootId : Nat)
    (newRule : RecurrenceRule) (hval : validRule newRule = true) :
    (∃ outF, editParentRecurrence tasks rootId newRule false = some outF ∧
      List.Forall₂ (fun t u =>
        u.due_date = t.due_date ∧ u.anchor = t.anchor ∧ u.id = t.id ∧
        u.parent_task_id = t.parent_task_id ∧ u.status = t.status ∧
        u.completed_at = t.completed_at ∧
        (t.id ≠ rootId → u.rule = t.rule) ∧
        (t.id = rootId → u.rule = newRule)) tasks outF) ∧
    (∃ outT, editParentRecurrence tasks rootId newRule true = some outT ∧
      List.Forall₂ (fun t u =>
        u.id = t.id ∧ u.parent_task_id = t.parent_task_id ∧ u.status = t.status ∧
        u.anchor = t.anchor ∧ u.completed_at = t.completed_at ∧
        (t.id = rootId → u.rule = newRule ∧ u.due_date = t.due_date) ∧
        (t.id ≠ rootId → t.parent_task_id = some rootId → t.status ≠ Status.done →
          u.rule = newRule ∧
          u.due_date = recomputeDue t.anchor newRule t.due_date) ∧
        (t.id ≠ rootId → ¬(t.parent_task_id = some rootId ∧ t.status ≠ Status.done) →
          u = t)) tasks outT) := by
  have hkey : ∀ p : Bool, editParentRecurrence tasks rootId newRule p =
      some (tasks.map (applyEdit rootId newRule p)) := by
    intro p
    unfold editParentRecurrence
    rw [if_pos hval]
  constructor
  · refine ⟨_, hkey false, forall2_map_self _ _ _ ?_⟩
    intro t _
    unfold applyEdit
    by_cases h1 : t.id = rootId
    · rw [if_pos h1]
      exact ⟨rfl, rfl, rfl, rfl, rfl, rfl, fun hne => absurd h1 hne, fun _ => rfl⟩
    · rw [if_neg h1, if_neg (by rintro ⟨hfalse, -⟩; exact absurd hfalse (by simp))]
      exact ⟨rfl, rfl, rfl, rfl, rfl, rfl, fun _ => rfl, fun heq => absurd heq h1⟩
  · refine ⟨_, hkey true, forall2_map_self _ _ _ ?_⟩
    intro t _
    unfold applyEdit
    by_cases h1 : t.id = rootId
    · rw [if_pos h1]
      refine ⟨rfl, rfl, rfl, rfl, rfl, fun _ => ⟨rfl, rfl⟩, ?_, ?_⟩
      · intro hne _ _
        exact absurd h1 hne
      · intro hne _
        exact absurd h1 hne
    · rw [if_neg h1]
      by_cases h2 : t.parent_task_id = some rootId ∧ t.status ≠ Status.done
      · rw [if_pos ⟨rfl, h2.1, h2.2⟩]
        refine ⟨rfl, rfl, rfl, rfl, rfl, fun heq => absurd heq h1, ?_, ?_⟩
        · intro _ _ _
          exact ⟨rfl, rfl⟩
        · intro _ hcon
          exact absurd h2 hcon
      · rw [if_neg (by rintro ⟨-, hpar, hst⟩; exact h2 ⟨hpar, hst⟩)]
        refine ⟨rfl, rfl, rfl, rfl, rfl, fun heq => absurd heq h1, ?_, ?_⟩
        · intro _ hpar hst
          exact absurd ⟨hpar, hst⟩ h2
        · intro _ _
          rfl

/-- A root task and two children (one completed, one pending) used by the
C7 witness. -/
def c7tasks : List TaskOccurrence :=
  [⟨1, Option.none, ⟨2024, 1, 1⟩, Status.not_started, Option.none,
    ⟨RecurrenceType.daily, 1, Option.none, Option.none, Option.none,
     Option.none, false⟩, ⟨2024, 1, 1⟩⟩,
   ⟨2, some 1, ⟨2024, 1, 2⟩, Status.not_started, Option.none,
    ⟨RecurrenceType.daily, 1, Option.none, Option.none, Option.none,
     Option.none, false⟩, ⟨2024, 1, 1⟩⟩,
   ⟨3, some 1, ⟨2024, 1, 3⟩, Status.done, some ⟨2024, 1, 3⟩,
    ⟨RecurrenceType.daily, 1, Option.none, Option.none, Option.none,
     Option.none, false⟩, ⟨2024, 1, 2⟩⟩]

/-- The replacement weekly rule used by the C7 witness. -/
def c7newRule : RecurrenceRule :=
  ⟨RecurrenceType.weekly, 2, some 1, Option.none, Option.none, Option.none, false⟩

/-- Witness for claim C7 on a concrete root with a pending and a
completed child. -/
theorem C7_witness :
    (∃ outF, editParentRecurrence c7tasks 1 c7newRule false = some outF ∧
      List.Forall₂ (fun t u =>
        u.due_date = t.due_date ∧ u.anchor = t.anchor ∧ u.id = t.id ∧
        u.parent_task_id = t.parent_task_id ∧ u.status = t.status ∧
        u.completed_at = t.completed_at ∧
        (t.id ≠ 1 → u.rule = t.rule) ∧
        (t.id = 1 → u.rule = c7newRule)) c7tasks outF) ∧
    (∃ outT, editParentRecurrence c7tasks 1 c7newRule true = some outT ∧
      List.Forall₂ (fun t u =>
        u.id = t.id ∧ u.parent_task_id = t.parent_task_id ∧ u.status = t.status ∧
        u.anchor = t.anchor ∧ u.completed_at = t.completed_at ∧
        (t.id = 1 → u.rule = c7newRule ∧ u.due_date = t.due_date) ∧
        (t.id ≠ 1 → t.parent_task_id = some 1 → t.status ≠ Status.done →
          u.rule = c7newRule ∧
          u.due_date = recomputeDue t.anchor c7newRule t.due_date) ∧
        (t.id ≠ 1 → ¬(t.parent_task_id = some 1 ∧ t.status ≠ Status.done) →
          u = t)) c7tasks outT) :=
  C7_edit_parent_frame c7tasks 1 c7newRule (by decide)

/-! ## Claim C8: handleAuthResponse -/

/-- Claim C8: handleAuthResponse returns its response argument unchanged
exactly when the response is ok; every non-ok response makes it throw —
with message Authentication required on status 401, otherwise with the
backend-provided message when the body parses as JSON with one, else with
the supplied errorMessage — so a non-ok response is never returned. -/
theorem C8_handleAuthResponse (r : HttpResponse) (msg : String) :
    (∀ r2, handleAuthResponse r msg = Except.ok r2 ↔ (r.ok = true ∧ r2 = r)) ∧
    (r.ok = false →
      handleAuthResponse r msg =
        Except.error (if r.status = 401 then "Authentication required"
                      else r.jsonMessage.getD msg)) := by
  constructor
  · intro r2
    constructor
    · intro h
      unfold handleAuthResponse at h
      split at h
      · split at h
        · exact absurd h (by simp)
        · exact absurd h (by simp)
      · rename_i hnot
        cases h
        refine ⟨?_, rfl⟩
        revert hnot
        cases r.ok <;> simp
    · rintro ⟨hok, rfl⟩
      unfold handleAuthResponse
      rw [if_neg (by simp [hok])]
  · intro hok
    unfold handleAuthResponse
    rw [if_pos hok]
    by_cases h401 : r.status = 401
    · rw [if_pos h401, if_pos h401]
    · rw [if_neg h401, if_neg h401]
      cases hjm : r.jsonMessage <;> rfl

/-- Witness for claim C8 at a concrete non-ok response carrying a backend
message. -/
theorem C8_witness :
    (∀ r2, handleAuthResponse ⟨false, 500, some "boom"⟩ "fallback" = Except.ok r2 ↔
      ((⟨false, 500, some "boom"⟩ : HttpResponse).ok = true ∧
        r2 = ⟨false, 500, some "boom"⟩)) ∧
    ((⟨false, 500, some "boom"⟩ : HttpResponse).ok = false →
      handleAuthResponse ⟨false, 500, some "boom"⟩ "fallback" =
        Except.error (if (⟨false, 500, some "boom"⟩ : HttpResponse).status = 401
                      then "Authentication required"
                      else Option.getD (some "boom") "fallback")) :=
  C8_handleAuthResponse ⟨false, 500, some "boom"⟩ "fallback"

/-! ## Claim C9: profile getters default to enabled -/

/-- Claim C9: each of the four profile feature getters returns true both
when the profile fetch throws and when the fetched profile lacks the
corresponding field; being total functions into Bool, they propagate no
fetch error. -/
theorem C9_getters_default_enabled (fetched : Except String ProfileData) :
    (∀ err, fetched = Except.error err →
      getTaskIntelligenceEnabled fetched = true ∧
      getAutoSuggestNextActionsEnabled fetched = true ∧
      getProductivityAssistantEnabled fetched = true ∧
      getNextTaskSuggestionEnabled fetched = true) ∧
    (∀ p, fetched = Except.ok p →
      (p.task_intelligence_enabled = Option.none →
        getTaskIntelligenceEnabled fetched = true) ∧
      (p.auto_suggest_next_actions_enabled = Option.none →
        getAutoSuggestNextActionsEnabled fetched = true) ∧
      (p.productivity_assistant_enabled = Option.none →
        getProductivityAssistantEnabled fetched = true) ∧
      (p.next_task_suggestion_enabled = Option.none →
        getNextTaskSuggestionEnabled fetched = true)) := by
  constructor
  · rintro err rfl
    exact ⟨rfl, rfl, rfl, rfl⟩
  · rintro p rfl
    refine ⟨?_, ?_, ?_, ?_⟩
    · intro hnone
      simp [getTaskIntelligenceEnabled, hnone]
    · intro hnone
      simp [getAutoSuggestNextActionsEnabled, hnone]
    · intro hnone
      simp [getProductivityAssistantEnabled, hnone]
    · intro hnone
      simp [getNextTaskSuggestionEnabled, hnone]

/-- Witness for claim C9 at a failed fetch and at a profile missing every
feature field. -/
theorem C9_witness :
    ((∀ err, (Except.error "network down" : Except String ProfileData) =
        Except.error err →
      getTaskIntelligenceEnabled (Except.error "network down") = true ∧
      getAutoSuggestNextActionsEnabled (Except.error "network down") = true ∧
      getProductivityAssistantEnabled (Except.error "network down") = true ∧
      getNextTaskSuggestionEnabled (Except.error "network down") = true) ∧
    (∀ p, (Except.error "network down" : Except String ProfileData) =
        Except.ok p →
      (p.task_intelligence_enabled = Option.none →
        getTaskIntelligenceEnabled (Except.error "network down") = true) ∧
      (p.auto_suggest_next_actions_enabled = Option.none →
        getAutoSuggestNextActionsEnabled (Except.error "network down") = true) ∧
      (p.productivity_assistant_enabled = Option.none →
        getProductivityAssistantEnabled (Except.error "network down") = true) ∧
      (p.next_task_suggestion_enabled = Option.none →
        getNextTaskSuggestionEnabled (Except.error "network down") = true))) :=
  C9_getters_default_enabled (Except.error "network down")

/-! ## Claim C10: timeline labels are total -/

/-- Claim C10: getStatusLabel and getPriorityLabel are total on all
integers: statuses 0..3 map to the four named labels and every other
integer to Unknown; priorities 0..2 map to the three named labels and
every other integer to None — rendering never fails on out-of-range
values. -/
theorem C10_labels_total (n : Int) :
    (n = 0 → getStatusLabel n = "Pending") ∧
    (n = 1 → getStatusLabel n = "In Progress") ∧
    (n = 2 → getStatusLabel n = "Completed") ∧
    (n = 3 → getStatusLabel n = "Archived") ∧
    (n ≠ 0 → n ≠ 1 → n ≠ 2 → n ≠ 3 → getStatusLabel n = "Unknown") ∧
    (n = 0 → getPriorityLabel n = "Low") ∧
    (n = 1 → getPriorityLabel n = "Medium") ∧
    (n = 2 → getPriorityLabel n = "High") ∧
    (n ≠ 0 → n ≠ 1 → n ≠ 2 → getPriorityLabel n = "None") := by
  refine ⟨?_, ?_, ?_, ?_, ?_, ?_, ?_, ?_, ?_⟩
  · rintro rfl
    rfl
  · rintro rfl
    rfl
  · rintro rfl
    rfl
  · rintro rfl
    rfl
  · intro h0 h1 h2 h3
    unfold getStatusLabel
    rw [if_neg h0, if_neg h1, if_neg h2, if_neg h3]
  · rintro rfl
    rfl
  · rintro rfl
    rfl
  · rintro rfl
    rfl
  · intro h0 h1 h2
    unfold getPriorityLabel
    rw [if_neg h0, if_neg h1, if_neg h2]

/-- Witness for claim C10 at the out-of-range value 7. -/
theorem C10_witness :
    ((7 : Int) = 0 → getStatusLabel 7 = "Pending") ∧
    ((7 : Int) = 1 → getStatusLabel 7 = "In Progress") ∧
    ((7 : Int) = 2 → getStatusLabel 7 = "Completed") ∧
    ((7 : Int) = 3 → getStatusLabel 7 = "Archived") ∧
    ((7 : Int) ≠ 0 → (7 : Int) ≠ 1 → (7 : Int) ≠ 2 → (7 : Int) ≠ 3 →
      getStatusLabel 7 = "Unknown") ∧
    ((7 : Int) = 0 → getPriorityLabel 7 = "Low") ∧
    ((7 : Int) = 1 → getPriorityLabel 7 = "Medium") ∧
    ((7 : Int) = 2 → getPriorityLabel 7 = "High") ∧
    ((7 : Int) ≠ 0 → (7 : Int) ≠ 1 → (7 : Int) ≠ 2 →
      getPriorityLabel 7 = "None") :=
  C10_labels_total 7

end TM
